import Mathlib

/-!
# Verification of the tag proximity-analysis utility

Shallow embedding of `20240618_tno_code_assessment_daniloremmers.py`.
Dataframes are embedded as lists of record structures; `pd.merge` on a
column becomes an order-preserving inner join; `np.isclose` becomes its
defining inequality over ℚ; the Python `for` loop counting uninterrupted
contact periods becomes a structurally recursive loop with the same state.
-/

/-- One row of a tag CSV file: columns `Time [s]`, `ContactID`, `Distance [m]`. -/
structure TagReading where
  time : ℚ
  contactID : String
  distance : ℚ
  deriving DecidableEq, Repr

/-- One row of the position CSV file: columns `Time [s]`, `TagID`, `x [m]`, `y[m]`. -/
structure PosRow where
  time : ℚ
  tagID : Char
  x : ℚ
  y : ℚ
  deriving DecidableEq, Repr

/-- Embeds `np.isclose(a, b)` with the default tolerances `rtol = 1e-05`, `atol = 1e-08`:
`|a - b| <= atol + rtol * |b|`. -/
def isclose (a b : ℚ) : Bool :=
  decide (|a - b| ≤ 1/100000000 + (1/100000) * |b|)

/-- Embeds `pd.merge(tag_a_df, tag_b_df, on=Time)`: inner join keeping the
left row order and, per left row, the right matches in order. -/
def mergeTags : List TagReading → List TagReading → List (TagReading × TagReading)
  | [], _ => []
  | a :: as, bs =>
      ((bs.filter fun b => decide (b.time = a.time)).map fun b => (a, b)) ++ mergeTags as bs

/-- The `distance_match` test applied to each joined row; the rows failing it
are `mismatched_distances` (line 45). -/
def mismatchedDistances (tag_a_df tag_b_df : List TagReading) : List (TagReading × TagReading) :=
  (mergeTags tag_a_df tag_b_df).filter fun p => !(isclose p.1.distance p.2.distance)

/-- The `within_1_5m` boolean column (line 53): both joined distances ≤ 1.5. -/
def withinFlags (tag_a_df tag_b_df : List TagReading) : List Bool :=
  (mergeTags tag_a_df tag_b_df).map fun p =>
    decide (p.1.distance ≤ 3/2) && decide (p.2.distance ≤ 3/2)

/-- The `for` loop of lines 56-63, with its `in_contact` flag and the
`uninterrupted_periods` accumulator. -/
def periodLoop : List Bool → Bool → Nat → Nat
  | [], _, acc => acc
  | f :: rest, inContact, acc =>
      if f then
        if inContact then periodLoop rest true acc
        else periodLoop rest true (acc + 1)
      else periodLoop rest false acc

/-- The `uninterrupted_periods` value as computed by `verify_distances` on a flag column. -/
def uninterrupted_periods (flags : List Bool) : Nat :=
  periodLoop flags false 0

/-- Embeds `verify_distances` (lines 42-64): returns the number of mismatched rows it
prints and the uninterrupted-period count it prints. -/
def verify_distances (tag_a_df tag_b_df : List TagReading) : Nat × Nat :=
  ((mismatchedDistances tag_a_df tag_b_df).length,
   uninterrupted_periods (withinFlags tag_a_df tag_b_df))

/-! ## Specification-side definition of the run count (for claim C3) -/

/-- Spec wording: a new run starts exactly at a below-threshold row
not immediately preceded by a below-threshold row. -/
def newRunStart (flags : List Bool) (i : Nat) : Bool :=
  flags.getD i false && (i == 0 || !(flags.getD (i - 1) false))

/-- Spec wording: the number of maximal runs = the number of run starts. -/
def specRunCount (flags : List Bool) : Nat :=
  (List.range flags.length).countP fun i => newRunStart flags i

/-! ### Bridging lemmas -/

/-- Run starts counted left to right, with `b` the within-threshold status of
the (virtual) row before the first. -/
def startsFrom : Bool → List Bool → Nat
  | _, [] => 0
  | b, f :: rest => (if f && !b then 1 else 0) + startsFrom f rest

theorem periodLoop_eq (flags : List Bool) :
    ∀ (b : Bool) (acc : Nat), periodLoop flags b acc = acc + startsFrom b flags := by
  induction flags with
  | nil => intro b acc; simp [periodLoop, startsFrom]
  | cons f rest ih =>
      intro b acc
      cases f <;> cases b <;>
        simp [periodLoop, startsFrom, ih] <;> omega

/-- Index-based run-start count, with `b` the status before the first row. -/
def specFrom (b : Bool) (l : List Bool) : Nat :=
  (List.range l.length).countP fun i => l.getD i false && !((b :: l).getD i false)

theorem countP_range_succ_shift (p : Nat → Bool) (n : Nat) :
    (List.range (n + 1)).countP p = (if p 0 then 1 else 0) + (List.range n).countP fun i => p (i + 1) := by
  rw [List.range_succ_eq_map, List.countP_cons, List.countP_map]
  have h1 : (List.range n).countP (p ∘ Nat.succ) = (List.range n).countP fun i => p (i + 1) := by
    apply List.countP_congr
    intro i _
    simp [Function.comp, Nat.succ_eq_add_one]
  rw [h1, Nat.add_comm]

theorem specFrom_cons (b f : Bool) (rest : List Bool) :
    specFrom b (f :: rest) = (if f && !b then 1 else 0) + specFrom f rest := by
  unfold specFrom
  rw [show (f :: rest).length = rest.length + 1 from rfl, countP_range_succ_shift]
  rfl

theorem startsFrom_eq_specFrom (l : List Bool) : ∀ b, startsFrom b l = specFrom b l := by
  induction l with
  | nil => intro b; simp [startsFrom, specFrom]
  | cons f rest ih => intro b; rw [specFrom_cons, startsFrom, ih]

theorem specRunCount_eq_specFrom (flags : List Bool) :
    specRunCount flags = specFrom false flags := by
  unfold specRunCount specFrom
  apply List.countP_congr
  intro i hi
  cases i with
  | zero => simp [newRunStart, List.getD]
  | succ j => simp [newRunStart, List.getD]

theorem uninterrupted_periods_eq_specRunCount (flags : List Bool) :
    uninterrupted_periods flags = specRunCount flags := by
  rw [uninterrupted_periods, periodLoop_eq, startsFrom_eq_specFrom,
    specRunCount_eq_specFrom, Nat.zero_add]

/-! ## The tag-ID corrector (`correct_tag_ids`, lines 67-76) -/

/-- Embeds `pandas.Series.unique`: distinct values in order of first appearance. -/
def uniqueAux (seen : List Char) : List Char → List Char
  | [] => []
  | c :: rest => if c ∈ seen then uniqueAux seen rest else c :: uniqueAux (c :: seen) rest

/-- The result of `.unique()` applied to the TagID column. -/
def uniqueList (l : List Char) : List Char := uniqueAux [] l

/-- Python `max` over a nonempty collection of letters. -/
def maxChar : List Char → Char
  | [] => 'A'
  | c :: rest => rest.foldl max c

/-- Embeds `chr(ord(max(tag_ids)) + 1)` (line 74). -/
def nextAvailableLetter (position_df : List PosRow) : Char :=
  Char.ofNat ((maxChar (uniqueList (position_df.map PosRow.tagID))).toNat + 1)

/-- Embeds line 75, `position_df.loc[position_df.index % 2 == 1] = next_available_letter`; the index of a freshly read dataframe is `0..n-1`. -/
def relabelOdd (position_df : List PosRow) (c : Char) : List PosRow :=
  position_df.enum.map fun p => if p.1 % 2 = 1 then { p.2 with tagID := c } else p.2

/-- Embeds `correct_tag_ids` (lines 67-76). Returns `none` when evaluating
`len(position_df) // len(unique_tags)` raises `ZeroDivisionError` (empty
dataset), otherwise whether the error message was printed together with the
returned dataframe. -/
def correct_tag_ids (position_df : List PosRow) : Option (Bool × List PosRow) :=
  let unique_tags := uniqueList (position_df.map PosRow.tagID)
  if unique_tags.length = 0 then none
  else if unique_tags.length ≠ position_df.length / unique_tags.length then
    some (true, relabelOdd position_df (nextAvailableLetter position_df))
  else some (false, position_df)

theorem uniqueList_cons (c : Char) (l : List Char) :
    uniqueList (c :: l) = c :: uniqueAux [c] l := by
  simp [uniqueList, uniqueAux]

theorem correct_tag_ids_cases (df : List PosRow) (h : df ≠ []) :
    ∃ b out, correct_tag_ids df = some (b, out) ∧
      (b = true ↔ (uniqueList (df.map PosRow.tagID)).length ≠
        df.length / (uniqueList (df.map PosRow.tagID)).length) ∧
      (b = false → out = df) ∧
      (b = true → out = relabelOdd df (nextAvailableLetter df)) := by
  have hu : (uniqueList (df.map PosRow.tagID)).length ≠ 0 := by
    cases df with
    | nil => exact absurd rfl h
    | cons p rest => simp [uniqueList_cons]
  by_cases hc : (uniqueList (df.map PosRow.tagID)).length =
      df.length / (uniqueList (df.map PosRow.tagID)).length
  · refine ⟨false, df, ?_, ⟨fun hh => absurd hh (by simp), fun hne => absurd hc hne⟩,
      fun _ => rfl, by simp⟩
    simp only [correct_tag_ids, if_neg hu]
    rw [if_neg (by simpa using hc)]
  · refine ⟨true, relabelOdd df (nextAvailableLetter df), ?_, ⟨fun _ => hc, fun _ => rfl⟩,
      by simp, fun _ => rfl⟩
    simp only [correct_tag_ids, if_neg hu]
    rw [if_pos hc]

/-- A clean four-row position dataset: two timestamps, one `A` and one `B` row each. -/
def dfClean4 : List PosRow :=
  [⟨0, 'A', 0, 0⟩, ⟨0, 'B', 1, 1⟩, ⟨1, 'A', 2, 2⟩, ⟨1, 'B', 3, 3⟩]

/-- A clean six-row position dataset: three timestamps, one `A` and one `B` row each. -/
def df6 : List PosRow :=
  [⟨0, 'A', 0, 0⟩, ⟨0, 'B', 1, 1⟩, ⟨1, 'A', 2, 2⟩, ⟨1, 'B', 3, 3⟩,
   ⟨2, 'A', 4, 4⟩, ⟨2, 'B', 5, 5⟩]

/-- What `correct_tag_ids` makes of `df6`: every odd-indexed row relabeled `C`. -/
def out6 : List PosRow :=
  [⟨0, 'A', 0, 0⟩, ⟨0, 'C', 1, 1⟩, ⟨1, 'A', 2, 2⟩, ⟨1, 'C', 3, 3⟩,
   ⟨2, 'A', 4, 4⟩, ⟨2, 'C', 5, 5⟩]

/-- A duplicate-label dataset: every timestamp has two `A` rows and no `B` row. -/
def dfAA : List PosRow :=
  [⟨0, 'A', 0, 0⟩, ⟨0, 'A', 1, 1⟩, ⟨1, 'A', 2, 2⟩, ⟨1, 'A', 3, 3⟩]

/-- What `correct_tag_ids` makes of `dfAA`: every odd-indexed row relabeled `B`. -/
def outAA : List PosRow :=
  [⟨0, 'A', 0, 0⟩, ⟨0, 'B', 1, 1⟩, ⟨1, 'A', 2, 2⟩, ⟨1, 'B', 3, 3⟩]

/-- C1 (code bug): on the clean six-row dataset `df6` — exactly two distinct
tag identifiers, no duplicate `(timestamp, identifier)` pair — `correct_tag_ids`
nevertheless flags the duplicate-labeling error (2 ≠ 6 / 2) and relabels the
odd-indexed rows to `'C'`, so the dataset is not returned unchanged. -/
theorem c1_clean_dataset_still_relabeled :
    correct_tag_ids df6 = some (true, out6) ∧
    (df6.get ⟨1, by decide⟩).tagID = 'B' ∧
    (out6.get ⟨1, by decide⟩).tagID = 'C' :=
  ⟨rfl, rfl, rfl⟩

/-- C2: `correct_tag_ids` flags the duplicate-labeling error exactly when the
distinct-identifier count differs from the integer quotient of the row count by
the distinct-identifier count, and when no error is flagged the dataset is
returned unmodified. -/
theorem c2_flag_iff_count_heuristic (df : List PosRow) (h : df ≠ []) :
    ∃ b out, correct_tag_ids df = some (b, out) ∧
      (b = true ↔ (uniqueList (df.map PosRow.tagID)).length ≠
        df.length / (uniqueList (df.map PosRow.tagID)).length) ∧
      (b = false → out = df) := by
  obtain ⟨b, out, heq, hiff, hfalse, -⟩ := correct_tag_ids_cases df h
  exact ⟨b, out, heq, hiff, hfalse⟩

/-- Witness for C2 at the clean four-row dataset. -/
theorem c2_flag_iff_count_heuristic_witness :
    ∃ b out, correct_tag_ids dfClean4 = some (b, out) ∧
      (b = true ↔ (uniqueList (dfClean4.map PosRow.tagID)).length ≠
        dfClean4.length / (uniqueList (dfClean4.map PosRow.tagID)).length) ∧
      (b = false → out = dfClean4) :=
  c2_flag_iff_count_heuristic dfClean4 (by decide)

/-- C5: whenever `correct_tag_ids` flags the error, every odd-row-indexed row
gets the letter after the maximum existing identifier as its TagID and every
even-row-indexed row is kept as is. -/
theorem c5_relabel_odd_rows (df out : List PosRow)
    (h : correct_tag_ids df = some (true, out)) :
    out.length = df.length ∧
    ∀ (i : Nat) (hi : i < out.length) (hdi : i < df.length),
      out.get ⟨i, hi⟩ =
        if i % 2 = 1 then { df.get ⟨i, hdi⟩ with tagID := nextAvailableLetter df }
        else df.get ⟨i, hdi⟩ := by
  have hne : df ≠ [] := by
    rintro rfl
    simp [correct_tag_ids, uniqueList, uniqueAux] at h
  obtain ⟨b, o, heq, -, -, htrue⟩ := correct_tag_ids_cases df hne
  rw [heq] at h
  obtain ⟨rfl, rfl⟩ : b = true ∧ o = out := by
    injection h with h'
    injection h' with h1 h2
    exact ⟨h1, h2⟩
  obtain rfl : o = relabelOdd df (nextAvailableLetter df) := htrue rfl
  constructor
  · simp [relabelOdd]
  · intro i hi hdi
    simp [relabelOdd, List.get_eq_getElem, List.getElem_map, List.getElem_enum]

/-- Witness for C5: the all-`A` dataset is relabeled, row 1 becoming `'B'`,
without any failure. -/
theorem c5_relabel_odd_rows_witness :
    correct_tag_ids dfAA = some (true, outAA) ∧
    outAA.get ⟨1, by decide⟩ =
      { dfAA.get ⟨1, by decide⟩ with tagID := nextAvailableLetter dfAA } := by
  have h : correct_tag_ids dfAA = some (true, outAA) := rfl
  refine ⟨h, ?_⟩
  simpa using (c5_relabel_odd_rows dfAA outAA h).2 1 (by decide) (by decide)

/-- C10: on the empty position dataset the distinct-identifier count is zero
and the `len(position_df) // len(unique_tags)` division fails, so
`correct_tag_ids` produces no result. -/
theorem c10_empty_dataset_division_by_zero :
    correct_tag_ids ([] : List PosRow) = none := rfl

/-! ## Mismatch counting (claim C6) -/

theorem isclose_self (x : ℚ) : isclose x x = true := by
  simp only [isclose, sub_self, abs_zero, decide_eq_true_eq]
  positivity

theorem mergeTags_skip (c : TagReading) (bs : List TagReading) :
    ∀ as : List TagReading, (∀ a ∈ as, a.time ≠ c.time) →
      mergeTags as (c :: bs) = mergeTags as bs := by
  intro as
  induction as with
  | nil => intro _; rfl
  | cons a as ih =>
      intro h
      have hca : ¬ decide (c.time = a.time) = true := by
        intro hc
        exact (h a (List.mem_cons_self a as)) (of_decide_eq_true hc).symm
      simp only [mergeTags]
      rw [List.filter_cons, if_neg hca, ih fun x hx => h x (List.mem_cons_of_mem a hx)]

theorem mergeTags_eq_zip :
    ∀ as bs : List TagReading,
      as.map TagReading.time = bs.map TagReading.time →
      (as.map TagReading.time).Nodup →
      mergeTags as bs = as.zip bs := by
  intro as
  induction as with
  | nil =>
      intro bs h _
      obtain rfl : bs = [] := by simpa using h.symm
      rfl
  | cons a as ih =>
      intro bs h hnd
      cases bs with
      | nil => simp at h
      | cons b bs' =>
          simp only [List.map_cons, List.cons.injEq] at h
          obtain ⟨hab, htail⟩ := h
          simp only [List.map_cons, List.nodup_cons] at hnd
          obtain ⟨hnotin, hnd'⟩ := hnd
          simp only [mergeTags, List.zip_cons_cons]
          rw [List.filter_cons, if_pos (by simp [hab]),
            show bs'.filter (fun x => decide (x.time = a.time)) = [] from
              List.filter_eq_nil_iff.2 fun x hx => by
                simp only [decide_eq_true_eq]
                intro hc
                exact hnotin (htail ▸ hc ▸ List.mem_map_of_mem TagReading.time hx),
            mergeTags_skip b bs' as fun x hx hc =>
              hnotin (hab ▸ hc ▸ List.mem_map_of_mem TagReading.time hx),
            ih bs' htail (by simpa [htail] using hnd')]
          rfl

/-- C6: with identical timestamp columns (no repeats), identical distances give
zero mismatched rows, and exactly one approximately-differing row gives exactly
one mismatched row. -/
theorem c6_mismatch_counts (as bs : List TagReading)
    (hteq : as.map TagReading.time = bs.map TagReading.time)
    (hnd : (as.map TagReading.time).Nodup) :
    ((∀ p ∈ as.zip bs, p.1.distance = p.2.distance) →
        (verify_distances as bs).1 = 0) ∧
    (∀ l1 (pa pb : TagReading) l2,
        as.zip bs = l1 ++ (pa, pb) :: l2 →
        (∀ q ∈ l1 ++ l2, isclose q.1.distance q.2.distance = true) →
        isclose pa.distance pb.distance = false →
        (verify_distances as bs).1 = 1) := by
  have hz : mergeTags as bs = as.zip bs := mergeTags_eq_zip as bs hteq hnd
  constructor
  · intro hall
    have : mismatchedDistances as bs = [] := by
      rw [mismatchedDistances, hz, List.filter_eq_nil_iff]
      intro p hp
      simp [hall p hp, isclose_self]
    simp [verify_distances, this]
  · intro l1 pa pb l2 hsplit hgood hbad
    have h1 : l1.filter (fun p => !(isclose p.1.distance p.2.distance)) = [] :=
      List.filter_eq_nil_iff.2 fun q hq => by
        simp [hgood q (List.mem_append_left l2 hq)]
    have h2 : l2.filter (fun p => !(isclose p.1.distance p.2.distance)) = [] :=
      List.filter_eq_nil_iff.2 fun q hq => by
        simp [hgood q (List.mem_append_right l1 hq)]
    have : mismatchedDistances as bs = [(pa, pb)] := by
      rw [mismatchedDistances, hz, hsplit, List.filter_append, List.filter_cons,
        if_pos (by simp [hbad]), h1, h2]
      rfl
    simp [verify_distances, this]

/-- Witness for C6: two two-row reading sets; with equal distances the mismatch
count is 0, with the second distance changed from 2 to 3 it is 1. -/
theorem c6_mismatch_counts_witness :
    (verify_distances [⟨0, "B", 1⟩, ⟨1, "B", 2⟩] [⟨0, "A", 1⟩, ⟨1, "A", 2⟩]).1 = 0 ∧
    (verify_distances [⟨0, "B", 1⟩, ⟨1, "B", 2⟩] [⟨0, "A", 1⟩, ⟨1, "A", 3⟩]).1 = 1 := by
  have hnd : ((([⟨0, "B", 1⟩, ⟨1, "B", 2⟩] : List TagReading)).map TagReading.time).Nodup := by
    simp only [List.map_cons, List.map_nil, List.nodup_cons, List.mem_singleton,
      List.not_mem_nil, not_false_iff, and_true, List.nodup_nil]
    norm_num
  constructor
  · refine (c6_mismatch_counts [⟨0, "B", 1⟩, ⟨1, "B", 2⟩]
      [⟨0, "A", 1⟩, ⟨1, "A", 2⟩] rfl hnd).1 ?_
    intro p hp
    have hmem : p = ((⟨0, "B", 1⟩ : TagReading), (⟨0, "A", 1⟩ : TagReading)) ∨
        p = ((⟨1, "B", 2⟩ : TagReading), (⟨1, "A", 2⟩ : TagReading)) := by
      simpa using hp
    rcases hmem with rfl | rfl
    · rfl
    · rfl
  · refine (c6_mismatch_counts [⟨0, "B", 1⟩, ⟨1, "B", 2⟩]
      [⟨0, "A", 1⟩, ⟨1, "A", 3⟩] rfl hnd).2
      [((⟨0, "B", 1⟩ : TagReading), (⟨0, "A", 1⟩ : TagReading))] ⟨1, "B", 2⟩ ⟨1, "A", 3⟩ []
      rfl ?_ ?_
    · intro q hq
      have : q = ((⟨0, "B", 1⟩ : TagReading), (⟨0, "A", 1⟩ : TagReading)) := by
        simpa using hq
      rw [this]
      exact isclose_self 1
    · rw [isclose, decide_eq_false_iff_not]
      rw [show ((2 : ℚ) - 3) = -1 by norm_num, abs_neg, abs_one,
        show |(3 : ℚ)| = 3 from abs_of_nonneg (by norm_num)]
      norm_num

/-! ## The main analysis (`tag_analysis`, lines 108-134) -/

/-- Embeds the filters of lines 121-122: the rows with `Distance <= 1.5`. -/
def contactFilter (df : List TagReading) : List TagReading :=
  df.filter fun r => decide (r.distance ≤ 3/2)

/-- Embeds `pd.merge(contact_within_1_5m_x, position_df[...], on=Time)`
(lines 126-127): inner join of readings against position rows by timestamp. -/
def mergeTagPos : List TagReading → List PosRow → List (TagReading × PosRow)
  | [], _ => []
  | t :: ts, ps =>
      ((ps.filter fun p => decide (p.time = t.time)).map fun p => (t, p)) ++ mergeTagPos ts ps

/-- Everything `tag_analysis` computes after loading, besides console output
and the plot: the corrector's outcome, the verifier's two printed counts, the
two contact-position joins and the printed total contact duration. -/
structure AnalysisResult where
  errorFlagged : Bool
  positionCorrected : List PosRow
  mismatchCount : Nat
  periodCount : Nat
  contactAPos : List (TagReading × PosRow)
  contactBPos : List (TagReading × PosRow)
  totalContactDuration : ℚ
  deriving DecidableEq, Repr

/-- Embeds `tag_analysis` (lines 108-134), after the CSV files are read. `correct_tag_ids`
mutates `position_df` in place, so the joins on lines 126-127 see the corrected
rows. `none` models the uncaught `ZeroDivisionError` from `correct_tag_ids`. -/
def tag_analysis (tag_a_df tag_b_df : List TagReading) (position_df : List PosRow) :
    Option AnalysisResult :=
  match correct_tag_ids position_df with
  | none => none
  | some (flag, corrected) =>
      some {
        errorFlagged := flag
        positionCorrected := corrected
        mismatchCount := (verify_distances tag_a_df tag_b_df).1
        periodCount := (verify_distances tag_a_df tag_b_df).2
        contactAPos :=
          mergeTagPos (contactFilter tag_a_df) (corrected.filter fun p => decide (p.tagID = 'A'))
        contactBPos :=
          mergeTagPos (contactFilter tag_b_df) (corrected.filter fun p => decide (p.tagID = 'B'))
        totalContactDuration :=
          ((min (contactFilter tag_a_df).length (contactFilter tag_b_df).length : ℕ) : ℚ) * (1/10) }

theorem mergeTags_eq_nil (as bs : List TagReading)
    (h : ∀ a ∈ as, ∀ b ∈ bs, a.time ≠ b.time) : mergeTags as bs = [] := by
  induction as with
  | nil => rfl
  | cons a as ih =>
      simp only [mergeTags]
      rw [List.filter_eq_nil_iff.2 fun b hb => by
            simp only [decide_eq_true_eq]
            exact fun hc => (h a (List.mem_cons_self a as)) b hb hc.symm,
        ih fun x hx => h x (List.mem_cons_of_mem a hx)]
      rfl

theorem mergeTagPos_eq_nil (ts : List TagReading) (ps : List PosRow)
    (h : ∀ t ∈ ts, ∀ p ∈ ps, t.time ≠ p.time) : mergeTagPos ts ps = [] := by
  induction ts with
  | nil => rfl
  | cons t ts ih =>
      simp only [mergeTagPos]
      rw [List.filter_eq_nil_iff.2 fun p hp => by
            simp only [decide_eq_true_eq]
            exact fun hc => (h t (List.mem_cons_self t ts)) p hp hc.symm,
        ih fun x hx => h x (List.mem_cons_of_mem t hx)]
      rfl

theorem relabelOdd_map_time (df : List PosRow) (c : Char) :
    (relabelOdd df c).map PosRow.time = df.map PosRow.time := by
  simp only [relabelOdd, List.map_map]
  have hfun : (PosRow.time ∘ fun p : Nat × PosRow =>
      if p.1 % 2 = 1 then { p.2 with tagID := c } else p.2) = PosRow.time ∘ Prod.snd := by
    funext p
    by_cases h : p.1 % 2 = 1 <;> simp [h]
  rw [hfun, ← List.map_map, List.enum_map_snd]

theorem correct_tag_ids_map_time (df out : List PosRow) (b : Bool)
    (h : correct_tag_ids df = some (b, out)) :
    out.map PosRow.time = df.map PosRow.time := by
  have hne : df ≠ [] := by
    rintro rfl
    simp [correct_tag_ids, uniqueList, uniqueAux] at h
  obtain ⟨b', o, heq, -, hfalse, htrue⟩ := correct_tag_ids_cases df hne
  rw [heq] at h
  injection h with h'
  injection h' with h1 h2
  rw [← h2]
  cases b' with
  | false => rw [hfalse rfl]
  | true => rw [htrue rfl, relabelOdd_map_time]

/-- C4: whenever `tag_analysis` runs to completion, the total contact duration
is `min(count_A, count_B) * 0.1` over the sub-threshold row counts, and with
`count_A = 50`, `count_B = 40` it is `4`. -/
theorem c4_total_contact_duration (tag_a_df tag_b_df : List TagReading)
    (position_df : List PosRow) (h : position_df ≠ []) :
    ∃ r, tag_analysis tag_a_df tag_b_df position_df = some r ∧
      r.totalContactDuration =
        ((min (contactFilter tag_a_df).length (contactFilter tag_b_df).length : ℕ) : ℚ) * (1/10) ∧
      ((contactFilter tag_a_df).length = 50 → (contactFilter tag_b_df).length = 40 →
        r.totalContactDuration = 4) := by
  obtain ⟨b, out, heq, -, -, -⟩ := correct_tag_ids_cases position_df h
  refine ⟨_, by rw [tag_analysis, heq], rfl, fun h50 h40 => ?_⟩
  show ((min (contactFilter tag_a_df).length (contactFilter tag_b_df).length : ℕ) : ℚ) * (1/10) = 4
  rw [h50, h40]
  norm_num

/-- Witness for C4: 50 sub-threshold tag-A rows and 40 sub-threshold tag-B rows
give a duration of 4. -/
theorem c4_total_contact_duration_witness :
    ∃ r, tag_analysis (List.replicate 50 ⟨0, "B", 1⟩) (List.replicate 40 ⟨0, "A", 1⟩) dfClean4 =
      some r ∧ r.totalContactDuration = 4 := by
  have h50 : (contactFilter (List.replicate 50 ⟨0, "B", 1⟩)).length = 50 := by
    rw [contactFilter, List.filter_replicate, if_pos (by norm_num), List.length_replicate]
  have h40 : (contactFilter (List.replicate 40 ⟨0, "A", 1⟩)).length = 40 := by
    rw [contactFilter, List.filter_replicate, if_pos (by norm_num), List.length_replicate]
  obtain ⟨r, hr, -, hd⟩ := c4_total_contact_duration
    (List.replicate 50 ⟨0, "B", 1⟩) (List.replicate 40 ⟨0, "A", 1⟩) dfClean4 (by decide)
  exact ⟨r, hr, hd h50 h40⟩

/-- C7: with no shared timestamps, `verify_distances` reports zero mismatches
and zero uninterrupted periods, and `tag_analysis` still returns a result whose
two contact-position joins are empty. -/
theorem c7_no_shared_timestamps (tag_a_df tag_b_df : List TagReading)
    (position_df : List PosRow) (hpos : position_df ≠ [])
    (hab : ∀ a ∈ tag_a_df, ∀ b ∈ tag_b_df, a.time ≠ b.time)
    (hapos : ∀ a ∈ tag_a_df, ∀ p ∈ position_df, a.time ≠ p.time)
    (hbpos : ∀ b ∈ tag_b_df, ∀ p ∈ position_df, b.time ≠ p.time) :
    verify_distances tag_a_df tag_b_df = (0, 0) ∧
    ∃ r, tag_analysis tag_a_df tag_b_df position_df = some r ∧
      r.contactAPos = [] ∧ r.contactBPos = [] := by
  have hm : mergeTags tag_a_df tag_b_df = [] := mergeTags_eq_nil tag_a_df tag_b_df hab
  obtain ⟨b, out, heq, -, -, -⟩ := correct_tag_ids_cases position_df hpos
  have htime : out.map PosRow.time = position_df.map PosRow.time :=
    correct_tag_ids_map_time position_df out b heq
  have hposmem : ∀ {q : PosRow} {c : Char},
      q ∈ out.filter (fun p => decide (p.tagID = c)) → ∃ p ∈ position_df, p.time = q.time := by
    intro q c hq
    have hq' : q ∈ out := (List.mem_filter.1 hq).1
    have : q.time ∈ position_df.map PosRow.time := by
      rw [← htime]
      exact List.mem_map_of_mem PosRow.time hq'
    obtain ⟨p, hp, hpt⟩ := List.mem_map.1 this
    exact ⟨p, hp, hpt⟩
  constructor
  · simp [verify_distances, mismatchedDistances, withinFlags, hm,
      uninterrupted_periods, periodLoop]
  · refine ⟨_, by rw [tag_analysis, heq], ?_, ?_⟩
    · show mergeTagPos (contactFilter tag_a_df)
        (out.filter fun p => decide (p.tagID = 'A')) = []
      apply mergeTagPos_eq_nil
      intro t ht q hq
      obtain ⟨p, hp, hpt⟩ := hposmem hq
      exact hpt ▸ hapos t (List.mem_filter.1 ht).1 p hp
    · show mergeTagPos (contactFilter tag_b_df)
        (out.filter fun p => decide (p.tagID = 'B')) = []
      apply mergeTagPos_eq_nil
      intro t ht q hq
      obtain ⟨p, hp, hpt⟩ := hposmem hq
      exact hpt ▸ hbpos t (List.mem_filter.1 ht).1 p hp

/-- Witness for C7: one tag-A row at time 0, one tag-B row at time 1, position
rows at times 5 and 6. -/
theorem c7_no_shared_timestamps_witness :
    verify_distances [⟨0, "B", 1⟩] [⟨1, "A", 1⟩] = (0, 0) ∧
    ∃ r, tag_analysis [⟨0, "B", 1⟩] [⟨1, "A", 1⟩]
        [⟨5, 'A', 0, 0⟩, ⟨5, 'B', 1, 1⟩, ⟨6, 'A', 2, 2⟩, ⟨6, 'B', 3, 3⟩] = some r ∧
      r.contactAPos = [] ∧ r.contactBPos = [] := by
  refine c7_no_shared_timestamps _ _ _ (by decide) ?_ ?_ ?_
  · intro a ha b hb
    have ha' : a = ⟨0, "B", 1⟩ := by simpa using ha
    have hb' : b = ⟨1, "A", 1⟩ := by simpa using hb
    rw [ha', hb']
    norm_num
  · intro a ha p hp
    have ha' : a = ⟨0, "B", 1⟩ := by simpa using ha
    have hp' : p = ⟨5, 'A', 0, 0⟩ ∨ p = ⟨5, 'B', 1, 1⟩ ∨ p = ⟨6, 'A', 2, 2⟩ ∨
        p = ⟨6, 'B', 3, 3⟩ := by simpa using hp
    rw [ha']
    rcases hp' with rfl | rfl | rfl | rfl <;> norm_num
  · intro b hb p hp
    have hb' : b = ⟨1, "A", 1⟩ := by simpa using hb
    have hp' : p = ⟨5, 'A', 0, 0⟩ ∨ p = ⟨5, 'B', 1, 1⟩ ∨ p = ⟨6, 'A', 2, 2⟩ ∨
        p = ⟨6, 'B', 3, 3⟩ := by simpa using hp
    rw [hb']
    rcases hp' with rfl | rfl | rfl | rfl <;> norm_num

/-! ## The loader (`read_csv_files`, lines 10-31) -/

/-- The letter part of a generated tag name (lines 15-22): `chr(person + 65)`
for `person <= 25`, else `chr(person // 26 + 64)` followed by
`chr(person % 26 + 65)`. -/
def tagLetters (person : Nat) : String :=
  if person ≤ 25 then String.mk [Char.ofNat (person + 65)]
  else String.mk [Char.ofNat (person / 26 + 64), Char.ofNat (person % 26 + 65)]

/-- The generated filename Tag<letters>.csv (lines 17 and 23). -/
def tagFileName (person : Nat) : String := "Tag" ++ tagLetters person ++ ".csv"

/-- Python `str.lower`, character by character. -/
def lowerStr (s : String) : String := String.mk (s.data.map Char.toLower)

/-- The dictionary key tag_<letters lowercased> (lines 18 and 24). -/
def tagKey (person : Nat) : String := "tag_" ++ lowerStr (tagLetters person)

/-- The `data_frames` dictionary built by the loop (lines 14-25), as a lookup:
later insertions win, which for a `dict` keyed by strings is ordinary lookup. -/
def dataFrames : Nat → String → Option String
  | 0, _ => none
  | n + 1, k => if k = tagKey n then some (tagFileName n) else dataFrames n k

/-- Embeds `read_csv_files` (lines 10-31): `env` stands for `pd.read_csv` over the
file system; `none` models the `KeyError` when `data_frames` lacks the
`tag_a` or `tag_b` key. Only the three returned reads consume files. -/
def read_csv_files {α : Type} (env : String → α) (position : String) (numtags : Nat) :
    Option (α × α × α) :=
  (dataFrames numtags ("tag_a")).bind fun fa =>
    (dataFrames numtags ("tag_b")).bind fun fb =>
      some (env fa, env fb, env position)

/-- Spreadsheet-column naming (A…Z, AA…AZ, BA, …), as the spec words it, in
bijective base 26. Structural fuel (`n + 1` always suffices) keeps it
kernel-reducible. -/
def colNameAux : Nat → Nat → List Char
  | 0, _ => []
  | fuel + 1, n =>
      if n < 26 then [Char.ofNat (65 + n)]
      else colNameAux fuel (n / 26 - 1) ++ [Char.ofNat (65 + n % 26)]

/-- The spreadsheet-column-style letter sequence for index `n`. -/
def spreadsheetColName (n : Nat) : String := String.mk (colNameAux (n + 1) n)

/-- C8 counterexample: at tag index 702 the generated name is `Tag[A.csv`
(`chr(91) = '['`), not the spreadsheet-style `TagAAA.csv`. -/
theorem c8_filename_deviates_at_702 :
    tagFileName 702 ≠ "Tag" ++ spreadsheetColName 702 ++ ".csv" := by decide

/-- C8 (amended): for tag indices up to 701 the generated filename is
`Tag<L>.csv` with `<L>` the spreadsheet-column-style letter sequence. -/
theorem c8_filename_spreadsheet_upto_701 (n : Nat) (h : n ≤ 701) :
    tagFileName n = "Tag" ++ spreadsheetColName n ++ ".csv" := by
  by_cases h25 : n ≤ 25
  · have hcol : colNameAux (n + 1) n = [Char.ofNat (65 + n)] := by
      simp only [colNameAux]
      rw [if_pos (by omega)]
    simp only [tagFileName, tagLetters, if_pos h25, spreadsheetColName, hcol,
      Nat.add_comm 65 n]
  · have hq1 : 1 ≤ n / 26 := by omega
    have hq2 : n / 26 - 1 < 26 := by omega
    have hcol : colNameAux (n + 1) n =
        [Char.ofNat (65 + (n / 26 - 1)), Char.ofNat (65 + n % 26)] := by
      cases n with
      | zero => omega
      | succ m =>
          simp only [colNameAux]
          rw [if_neg (by omega), if_pos (by omega)]
          rfl
    have hc1 : Char.ofNat (65 + (n / 26 - 1)) = Char.ofNat (n / 26 + 64) := by
      congr 1
      omega
    simp only [tagFileName, tagLetters, if_neg h25, spreadsheetColName, hcol, hc1,
      Nat.add_comm 65 (n % 26)]

/-- Witness for C8 (amended) at tag index 30 (`TagBE.csv`, spreadsheet `BE`). -/
theorem c8_filename_spreadsheet_upto_701_witness :
    tagFileName 30 = "Tag" ++ spreadsheetColName 30 ++ ".csv" :=
  c8_filename_spreadsheet_upto_701 30 (by decide)

theorem tagKey_ne_ab (p : Nat) (hp : 2 ≤ p) :
    tagKey p ≠ "tag_a" ∧ tagKey p ≠ "tag_b" := by
  by_cases h26 : p ≤ 25
  · have hsmall : ∀ q : Nat, q < 26 → 2 ≤ q →
        tagKey q ≠ "tag_a" ∧ tagKey q ≠ "tag_b" := by decide
    exact hsmall p (by omega) hp
  · have hlen : (tagKey p).length = 6 := by
      simp only [tagKey, tagLetters, if_neg h26, lowerStr, String.length_append]
      rfl
    constructor
    · intro hEq
      have := congrArg String.length hEq
      rw [hlen] at this
      exact absurd this (by decide)
    · intro hEq
      have := congrArg String.length hEq
      rw [hlen] at this
      exact absurd this (by decide)

theorem dataFrames_ab (n : Nat) (h : 2 ≤ n) :
    dataFrames n ("tag_a") = some ("TagA.csv") ∧ dataFrames n ("tag_b") = some ("TagB.csv") := by
  induction n with
  | zero => omega
  | succ m ih =>
      by_cases hm : 2 ≤ m
      · obtain ⟨ha, hb⟩ := ih hm
        obtain ⟨hka, hkb⟩ := tagKey_ne_ab m hm
        constructor
        · simp only [dataFrames]
          rw [if_neg fun hh => hka hh.symm]
          exact ha
        · simp only [dataFrames]
          rw [if_neg fun hh => hkb hh.symm]
          exact hb
      · have hm1 : m = 1 := by omega
        subst hm1
        exact ⟨by decide, by decide⟩

/-- C9: for any two tag counts ≥ 2 the loader consumes exactly the tag-A file,
the tag-B file and the position file, and returns the same result. -/
theorem c9_result_independent_of_tagcount {α : Type} (n1 n2 : Nat)
    (h1 : 2 ≤ n1) (h2 : 2 ≤ n2) (env : String → α) (position : String) :
    read_csv_files env position n1 = read_csv_files env position n2 ∧
    read_csv_files env position n1 = some (env ("TagA.csv"), env ("TagB.csv"), env position) := by
  obtain ⟨ha1, hb1⟩ := dataFrames_ab n1 h1
  obtain ⟨ha2, hb2⟩ := dataFrames_ab n2 h2
  have e1 : read_csv_files env position n1 =
      some (env ("TagA.csv"), env ("TagB.csv"), env position) := by
    rw [read_csv_files, ha1, hb1]
    rfl
  have e2 : read_csv_files env position n2 =
      some (env ("TagA.csv"), env ("TagB.csv"), env position) := by
    rw [read_csv_files, ha2, hb2]
    rfl
  exact ⟨e1.trans e2.symm, e1⟩

/-- Witness for C9 at tag counts 2 and 3 with the identity environment. -/
theorem c9_result_independent_of_tagcount_witness :
    read_csv_files id ("position.csv") 2 = read_csv_files id ("position.csv") 3 ∧
    read_csv_files id ("position.csv") 2 =
      some ("TagA.csv", "TagB.csv", "position.csv") :=
  c9_result_independent_of_tagcount 2 3 (by decide) (by decide) id ("position.csv")

/-- C3: the uninterrupted-period counter counts maximal within-threshold runs
(run starts in the spec's sense), and on the flag sequence
`[T,T,F,T,T,T,F,F,T]` it returns 3. -/
theorem c3_uninterrupted_periods_spec :
    (∀ tag_a_df tag_b_df : List TagReading,
        (verify_distances tag_a_df tag_b_df).2 = specRunCount (withinFlags tag_a_df tag_b_df)) ∧
    uninterrupted_periods [true, true, false, true, true, true, false, false, true] = 3 := by
  constructor
  · intro as bs
    exact uninterrupted_periods_eq_specRunCount (withinFlags as bs)
  · decide
